import Mathlib

/-!
Verification of the card layout and text-fitting engine of the `standee`
repository (`pdf-generator/generate_cards.py`, the vector backend, and
`pdf-generator/generate_png_cards.py`, the raster backend).

Conventions of the embedding:
* ReportLab floats are modelled by `ℚ` (the vector backend performs exact
  field arithmetic on the configuration values in these claims).
* Python `int(x)` (truncation toward zero) is `pytrunc`; Python `//`
  (floor division) on integers is `Int.fdiv`.
* Fonts are modelled by a linear metric: ReportLab's `stringWidth` is
  `size * u` where `u` is the per-point width of the string under the font
  (the sum of glyph widths divided by 1000), a nonnegative rational.
-/

namespace Standee

/-! ## Tokenizer — `_optimal_line_break`, generate_cards.py lines 112-128
(identical in generate_png_cards.py lines 106-121): split on space or
comma, a comma staying attached to the preceding token; delimiters seen
while the current token is empty are dropped. -/

def tokenizeAux : List Char → List Char → List String → List String
  | [], cur, acc => if cur ≠ [] then acc ++ [String.mk cur] else acc
  | c :: cs, cur, acc =>
      if c = ' ' ∨ c = ',' then
        if cur ≠ [] then
          if c = ',' then tokenizeAux cs [] (acc ++ [String.mk (cur ++ [','])])
          else tokenizeAux cs [] (acc ++ [String.mk cur])
        else tokenizeAux cs [] acc
      else tokenizeAux cs (cur ++ [c]) acc

def tokenize (text : String) : List String :=
  tokenizeAux text.data [] []

/-- `' '.join(...)` of Python. -/
def joinSpace : List String → String
  | [] => ""
  | [t] => t
  | t :: t' :: ts => t ++ " " ++ joinSpace (t' :: ts)

/-- Length of the first line obtained by joining the first `i` tokens. -/
def firstLen (toks : List String) (i : Nat) : Nat :=
  (joinSpace (toks.take i)).length

/-- One iteration of the two-line break-point search of
`_optimal_line_break` (generate_cards.py lines 141-150): the candidate
break `i` replaces the carried `(best_break, best_first_line_len)` when
its first line fits the threshold and is strictly longer than the best so
far. -/
def bestStep (f : Nat → Nat) (thr : Nat) (b : Nat × Nat) (i : Nat) : Nat × Nat :=
  if f i ≤ thr ∧ b.2 < f i then (i, f i) else b

/-- The two-line break-point search (generate_cards.py lines 136-150):
scan `i ∈ range(1, len(tokens))` starting from `(0, 0)`. -/
def bestBreak (toks : List String) (thr : Nat) : Nat × Nat :=
  (List.range' 1 (toks.length - 1)).foldl (bestStep (firstLen toks) thr) (0, 0)

/-- The greedy packer of `_optimal_line_break` for `max_lines ≠ 2`
(generate_cards.py lines 164-185): accumulate tokens while the joined
line fits, flush on overflow (a token overflowing an empty line is
emitted alone), break once `max_lines` lines exist. -/
def greedyGo (thr maxLines : Nat) : List String → List String → List String → List String
  | [], cur, lines =>
      if cur ≠ [] ∧ lines.length < maxLines then lines ++ [joinSpace cur] else lines
  | t :: ts, cur, lines =>
      if (joinSpace (cur ++ [t])).length ≤ thr then
        greedyGo thr maxLines ts (cur ++ [t]) lines
      else
        if cur ≠ [] then
          if maxLines ≤ (lines ++ [joinSpace cur]).length then lines ++ [joinSpace cur]
          else greedyGo thr maxLines ts [t] (lines ++ [joinSpace cur])
        else
          if maxLines ≤ (lines ++ [t]).length then lines ++ [t]
          else greedyGo thr maxLines ts [] (lines ++ [t])

/-- `_optimal_line_break(text, char_threshold, max_lines)`
(generate_cards.py lines 106-185 / generate_png_cards.py lines 101-173):
0 or 1 tokens return the text unchanged; `max_lines = 2` uses the optimal
break-point search with a midpoint fallback; any other line count uses
the greedy packer truncated to `max_lines` lines. -/
def optimalLineBreak (text : String) (thr : Nat) (maxLines : Nat) : List String :=
  if (tokenize text).length = 0 then [text]
  else if (tokenize text).length = 1 then [text]
  else if maxLines = 2 then
    if 0 < (bestBreak (tokenize text) thr).1 then
      [joinSpace ((tokenize text).take (bestBreak (tokenize text) thr).1),
       joinSpace ((tokenize text).drop (bestBreak (tokenize text) thr).1)]
    else
      [joinSpace ((tokenize text).take ((tokenize text).length / 2)),
       joinSpace ((tokenize text).drop ((tokenize text).length / 2))]
  else
    (greedyGo thr maxLines (tokenize text) [] []).take maxLines

/-! ## Python numeric primitives -/

/-- Python `int(x)`: truncation toward zero. -/
def pytrunc (q : ℚ) : ℤ := if 0 ≤ q then ⌊q⌋ else ⌈q⌉

/-! ## Single-line auto-shrink text fitter — `_draw_centered_text`,
generate_cards.py lines 195-208.  ReportLab's `stringWidth` is linear in
the font size: `stringWidth(text, font, size) = size * u` where `u` is the
per-point width of the string under the font metric.  `u` is kept abstract
as a rational parameter. -/

/-- `max_width = width - (2 * text_padding)` (line 198). -/
def availWidth (w pad : ℚ) : ℚ := w - 2 * pad

/-- `c.stringWidth(text, font, font_size)` under the linear metric `u`. -/
def measuredWidth (u : ℚ) (s : ℤ) : ℚ := s * u

/-- Lines 200-203: if the measured width exceeds the available width,
`font_size = int(font_size * (max_width / text_width))`; otherwise the
size is unchanged. -/
def autoShrinkSize (u : ℚ) (s : ℤ) (w pad : ℚ) : ℤ :=
  if availWidth w pad < measuredWidth u s then
    pytrunc ((s : ℚ) * (availWidth w pad / measuredWidth u s))
  else s

/-! ## Name-tier selection — generate_cards.py lines 290-300
(generate_png_cards.py lines 313-323). -/

structure NameTier where
  height : ℚ
  fontSize : ℚ
  multiline : Bool
  deriving DecidableEq

/-- `is_long_name = len(person_name) > name_length_threshold`; the long
tier takes `name_box_height_pt_long` / `name_font_size_pt_long` with
multiline enabled, the short tier the `_short` keys, single line. -/
def nameTier (shortH shortF longH longF : ℚ) (thr : Nat) (name : String) : NameTier :=
  if thr < name.length then ⟨longH, longF, true⟩ else ⟨shortH, shortF, false⟩

/-! ## Output-filename sanitizer — `_sanitize_filename`,
generate_cards.py lines 242-249 (generate_png_cards.py lines 262-267). -/

def isPySpace (c : Char) : Bool := c = ' ' || c = '\t' || c = '\n' || c = '\r'

/-- Python `str.strip()` restricted to the whitespace characters above. -/
def pyStripChars (cs : List Char) : List Char :=
  ((cs.dropWhile isPySpace).reverse.dropWhile isPySpace).reverse

/-- `"".join(c if c.isalnum() or c in (' ', '-', '_') else '_' for c in
name).strip().replace(' ', '_').lower()`.  `isalnum`/`lower` are embedded
with their ASCII semantics (`Char.isAlphanum`/`Char.toLower`); all inputs
used in the theorems below are ASCII, where the two agree with Python. -/
def sanitizeFilename (name : String) : String :=
  let safe := name.data.map fun c =>
    if c.isAlphanum || c = ' ' || c = '-' || c = '_' then c else '_'
  String.mk (((pyStripChars safe).map fun c =>
    if c = ' ' then '_' else c).map Char.toLower)

def pyStrip (s : String) : String := String.mk (pyStripChars s.data)

example : sanitizeFilename "Alice" = "alice" := by decide
example : sanitizeFilename "Bob Smith" = "bob_smith" := by decide
example : sanitizeFilename "Bob_Smith" = "bob_smith" := by decide
/-! ## Geometry resolver — `generate_card`.
Configuration values relevant to the layout, after the name tier has been
resolved (`nameH` is the selected name-box height).  The rational version
is the vector backend's view (ReportLab floats); the natural-number
version feeds the raster backend, whose `scale()` helper multiplies each
value by the integer magnification factor and truncates. -/

structure LayoutCfg where
  pageW : ℚ
  pageH : ℚ
  hPad : ℚ
  topPad : ℚ
  botPad : ℚ
  topMargin : ℚ
  photoH : ℚ
  nameH : ℚ
  nameHMargin : ℚ
  qrH : ℚ
  gap : ℚ
  msgH : ℚ
  bottomH : ℚ
  bottomHMargin : ℚ

structure LayoutCfgN where
  pageW : ℕ
  pageH : ℕ
  hPad : ℕ
  topPad : ℕ
  botPad : ℕ
  topMargin : ℕ
  photoH : ℕ
  nameH : ℕ
  nameHMargin : ℕ
  qrH : ℕ
  gap : ℕ
  msgH : ℕ
  bottomH : ℕ
  bottomHMargin : ℕ

def toQ (c : LayoutCfgN) : LayoutCfg :=
  ⟨c.pageW, c.pageH, c.hPad, c.topPad, c.botPad, c.topMargin, c.photoH,
   c.nameH, c.nameHMargin, c.qrH, c.gap, c.msgH, c.bottomH, c.bottomHMargin⟩

/-- `content_width = page_width - (2 * h_padding)` (line 280). -/
def contentW (c : LayoutCfg) : ℚ := c.pageW - 2 * c.hPad

/-! Canonical top-down section tops, generate_cards.py lines 315-319
(`y_top_photo` .. `y_top_bottom_box`); identical formulas in
generate_png_cards.py lines 336-340. -/

def yPhotoTop (c : LayoutCfg) : ℚ := c.topPad + c.topMargin

def yNameTop (c : LayoutCfg) : ℚ := yPhotoTop c + c.photoH

def yQrTop (c : LayoutCfg) : ℚ := yNameTop c + c.nameH

def yMessageTop (c : LayoutCfg) : ℚ := yQrTop c + c.qrH + c.gap

def yBottomTop (c : LayoutCfg) : ℚ := yMessageTop c + c.msgH

/-- A rectangle in the canonical top-left-origin, y-down space. -/
structure Rect where
  x : ℚ
  y : ℚ
  w : ℚ
  h : ℚ

/-- Two rectangles overlap when their interiors intersect. -/
def overlaps (a b : Rect) : Prop :=
  a.x < b.x + b.w ∧ b.x < a.x + a.w ∧ a.y < b.y + b.h ∧ b.y < a.y + a.h

def photoRect (c : LayoutCfg) : Rect := ⟨c.hPad, yPhotoTop c, contentW c, c.photoH⟩

def nameRect (c : LayoutCfg) : Rect :=
  ⟨c.hPad + c.nameHMargin, yNameTop c, contentW c - 2 * c.nameHMargin, c.nameH⟩

def qrRect (c : LayoutCfg) : Rect := ⟨c.hPad, yQrTop c, contentW c, c.qrH⟩

def messageRect (c : LayoutCfg) : Rect := ⟨c.hPad, yMessageTop c, contentW c, c.msgH⟩

def bottomRect (c : LayoutCfg) : Rect :=
  ⟨c.hPad + c.bottomHMargin, yBottomTop c, contentW c - 2 * c.bottomHMargin, c.bottomH⟩

/-! ## Vector backend coordinates — generate_cards.py lines 323-327:
`y_<section> = page_height - y_top_<section> - <section>_height -
bottom_padding`, in ReportLab's bottom-up space. -/

def pdfYPhoto (c : LayoutCfg) : ℚ := c.pageH - yPhotoTop c - c.photoH - c.botPad

def pdfYName (c : LayoutCfg) : ℚ := c.pageH - yNameTop c - c.nameH - c.botPad

def pdfYQr (c : LayoutCfg) : ℚ := c.pageH - yQrTop c - c.qrH - c.botPad

def pdfYMessage (c : LayoutCfg) : ℚ := c.pageH - yMessageTop c - c.msgH - c.botPad

def pdfYBottom (c : LayoutCfg) : ℚ := c.pageH - yBottomTop c - c.bottomH - c.botPad

/-! ## Raster backend coordinates — generate_png_cards.py lines 293-340.
`scale(val) = int(val * self.scale_factor)` (lines 297-298); the y
positions are already top-down. -/

def pngScale (s v : ℕ) : ℤ := pytrunc ((v : ℚ) * (s : ℚ))

def pngYPhoto (s : ℕ) (c : LayoutCfgN) : ℤ := pngScale s c.topPad + pngScale s c.topMargin

def pngYName (s : ℕ) (c : LayoutCfgN) : ℤ := pngYPhoto s c + pngScale s c.photoH

def pngYQr (s : ℕ) (c : LayoutCfgN) : ℤ := pngYName s c + pngScale s c.nameH

def pngYMessage (s : ℕ) (c : LayoutCfgN) : ℤ :=
  pngYQr s c + pngScale s c.qrH + pngScale s c.gap

def pngYBottom (s : ℕ) (c : LayoutCfgN) : ℤ := pngYMessage s c + pngScale s c.msgH

/-- `content_width = page_width - (2 * h_padding)` in pixels
(generate_png_cards.py line 306, with `page_width = int(page_width_pt *
scale_factor)`, line 293). -/
def pngContentW (s : ℕ) (c : LayoutCfgN) : ℤ :=
  pngScale s c.pageW - 2 * pngScale s c.hPad

/-! ## Image fill placement.
Vector: `_draw_centered_image`, generate_cards.py lines 84-104 — scale =
`max(max_width/img_width, max_height/img_height)`, exact final size, image
centered horizontally and anchored to the bottom of the section
(`y_offset = y` in bottom-up space).
Raster: `_paste_centered_image`, generate_png_cards.py lines 75-99 — same
scale, final size truncated with `int(...)`, `//` centering, image
anchored to the top of the section (`y_offset = y` in top-down space). -/

def fillScale (boxW boxH imgW imgH : ℚ) : ℚ := max (boxW / imgW) (boxH / imgH)

def pdfFinalW (boxW boxH imgW imgH : ℚ) : ℚ := imgW * fillScale boxW boxH imgW imgH

def pdfFinalH (boxW boxH imgW imgH : ℚ) : ℚ := imgH * fillScale boxW boxH imgW imgH

/-- `x_offset = x + (width - final_width) / 2` (line 99). -/
def pdfImgX (x w fw : ℚ) : ℚ := x + (w - fw) / 2

/-- Canonical (top-down) y of the top edge of the photo image drawn by the
vector backend: the image's bottom sits at `pdfYPhoto` (line 100,
`y_offset = y`), its top at `pdfYPhoto + finalH` in bottom-up space. -/
def pdfImgTopDownTop (c : LayoutCfg) (imgW imgH : ℚ) : ℚ :=
  c.pageH - pdfYPhoto c - pdfFinalH (contentW c) c.photoH imgW imgH

def pngFillScale (w h : ℤ) (iw ih : ℕ) : ℚ := max ((w : ℚ) / iw) ((h : ℚ) / ih)

/-- `final_width = int(img_width * scale)` (line 88). -/
def pngFinalW (w h : ℤ) (iw ih : ℕ) : ℤ := pytrunc ((iw : ℚ) * pngFillScale w h iw ih)

/-- `final_height = int(img_height * scale)` (line 89). -/
def pngFinalH (w h : ℤ) (iw ih : ℕ) : ℤ := pytrunc ((ih : ℚ) * pngFillScale w h iw ih)

/-- `x_offset = x + (width - final_width) // 2` (line 95). -/
def pngImgX (x w fw : ℤ) : ℤ := x + Int.fdiv (w - fw) 2

/-- `y_offset = y` (line 96): the raster image's top edge sits at the
section's top. -/
def pngImgTop (s : ℕ) (c : LayoutCfgN) : ℤ := pngYPhoto s c

/-! ## Run model — `generate_card` / `generate_all_cards` / `main`,
generate_cards.py lines 251-534.  Required configuration keys are
`Option`s; a `none` models a key absent from the JSON, whose access raises
`KeyError`.  Everything inside `generate_card`'s `try` block (lines
269-469) is caught by the `except Exception` handler (lines 466-469),
which returns `False` for that card; the run loop in `generate_all_cards`
(lines 487-509) then continues with the next record.  The document is
only written by `c.save()` (line 462), so a failed card produces no
output file; the executed-op list records which drawing primitives ran
before the failure. -/

structure RunCfg where
  pageW : Option ℕ
  pageH : Option ℕ
  hPad : Option ℕ
  topMargin : Option ℕ
  photoH : Option ℕ
  qrH : Option ℕ
  gap : Option ℕ
  msgH : Option ℕ
  nameBoxShortH : Option ℕ
  nameFontShort : Option ℕ
  nameBoxLongH : Option ℕ
  nameFontLong : Option ℕ
  nameLenThr : Option ℕ
  bottomH : Option ℕ
  qrCodeSize : Option ℕ
  messageText : Option String
  messageFontSize : Option ℕ

inductive DrawOp where
  | pageBg
  | photoImage
  | nameBoxFill
  | nameText
  | qrFill
  | qrImage
  | msgFill
  | msgText
  | bottomBox
  deriving DecidableEq

/-- The required keys read before the canvas is created (lines 271-307):
page dimensions, paddings, the selected name tier's keys (only the tier
chosen by the name length is read), and the fixed section heights.
`name_length_threshold` and the paddings use `.get` defaults and cannot
raise. -/
def earlyConfigOk (cfg : RunCfg) (name : String) : Bool :=
  cfg.pageW.isSome && cfg.pageH.isSome && cfg.hPad.isSome && cfg.topMargin.isSome &&
  (if cfg.nameLenThr.getD 22 < name.length
   then cfg.nameBoxLongH.isSome && cfg.nameFontLong.isSome
   else cfg.nameBoxShortH.isSome && cfg.nameFontShort.isSome) &&
  cfg.photoH.isSome && cfg.qrH.isSome && cfg.gap.isSome && cfg.msgH.isSome

/-- One card: the drawing primitives executed, and whether the card
succeeded (equivalently, whether the output document was saved).
`qr_code_size_pt` is first read at line 409, `message_text` at line 441
and `message_font_size_pt` at line 444 — all in the middle of painting,
after the background, photo, name box and QR section have been drawn. -/
def generateCard (cfg : RunCfg) (name : String) : List DrawOp × Bool :=
  if earlyConfigOk cfg name then
    if cfg.qrCodeSize.isSome then
      if cfg.messageText.isSome && cfg.messageFontSize.isSome then
        ([DrawOp.pageBg, DrawOp.photoImage, DrawOp.nameBoxFill, DrawOp.nameText,
          DrawOp.qrFill, DrawOp.qrImage, DrawOp.msgFill, DrawOp.msgText] ++
          (if 0 < cfg.bottomH.getD 0 then [DrawOp.bottomBox] else []), true)
      else
        ([DrawOp.pageBg, DrawOp.photoImage, DrawOp.nameBoxFill, DrawOp.nameText,
          DrawOp.qrFill, DrawOp.qrImage, DrawOp.msgFill], false)
    else
      ([DrawOp.pageBg, DrawOp.photoImage, DrawOp.nameBoxFill, DrawOp.nameText,
        DrawOp.qrFill], false)
  else ([], false)

structure Row where
  name : String
  image : String

/-- A record succeeds when both CSV fields are non-empty after stripping
and its card generates successfully (lines 487-507). -/
def rowOk (cfg : RunCfg) (r : Row) : Bool :=
  !(pyStrip r.name = "") && !(pyStrip r.image = "") &&
    (generateCard cfg (pyStrip r.name)).2

/-- One iteration of the `generate_all_cards` loop (lines 487-509): a row
with a missing field is skipped and counted as a failure; otherwise the
card is generated and counted by its result. -/
def runStep (cfg : RunCfg) (acc : ℕ × ℕ) (r : Row) : ℕ × ℕ :=
  if pyStrip r.name = "" ∨ pyStrip r.image = "" then (acc.1, acc.2 + 1)
  else if (generateCard cfg (pyStrip r.name)).2 then (acc.1 + 1, acc.2)
  else (acc.1, acc.2 + 1)

/-- The `(success_count, fail_count)` summary of `generate_all_cards`
(lines 484-518); the loop never aborts. -/
def runSummary (cfg : RunCfg) (rows : List Row) : ℕ × ℕ :=
  rows.foldl (runStep cfg) (0, 0)

/-- `main` (lines 521-534) runs `generate_all_cards` and returns without
calling `sys.exit`, so the interpreter exits with status 0 regardless of
the summary counts. -/
def mainExitCode (cfg : RunCfg) (rows : List Row) : ℕ :=
  let _ := runSummary cfg rows
  0

example : tokenize "Alice, Bob Carter" = ["Alice,", "Bob", "Carter"] := by decide
example : optimalLineBreak "Alice, Bob Carter" 10 2 = ["Alice, Bob", "Carter"] := by decide
example : optimalLineBreak "Supercalifragilisticexpialidocious" 10 2
    = ["Supercalifragilisticexpialidocious"] := by decide
example : optimalLineBreak "ab cd" 1 2 = ["ab", "cd"] := by decide
example : optimalLineBreak "aa bb cc dd" 5 3 = ["aa bb", "cc dd"] := by decide
example : optimalLineBreak "aa bb cc dd" 2 3 = ["aa", "bb", "cc"] := by decide
example : optimalLineBreak "a" 5 0 = ["a"] := by decide

/-! ## Helper lemmas -/

lemma pytrunc_nonneg (q : ℚ) (h : 0 ≤ q) : pytrunc q = ⌊q⌋ := by
  rw [pytrunc, if_pos h]

lemma pytrunc_neg (q : ℚ) (h : q < 0) : pytrunc q = -⌊-q⌋ := by
  rw [pytrunc, if_neg (not_le.2 h), Int.floor_neg, neg_neg]

/-! ## C5 — name tier selection -/

/-- C5: the name tier is selected by the strict comparison
`len(name) > name_length_threshold`: exceeding the threshold selects the
long tier (`name_box_height_long`, `name_font_size_long`, multiline);
otherwise the short tier.  A name of length exactly the threshold selects
the short tier; the 41-character name
"Dr. Evelyn Alexandra Montgomery-Whitfield" with threshold 22 selects the
long tier and "Bo" the short tier. -/
theorem c5_name_tier_selection (shortH shortF longH longF : ℚ) (thr : Nat) (name : String) :
    (thr < name.length →
      nameTier shortH shortF longH longF thr name = ⟨longH, longF, true⟩) ∧
    (name.length ≤ thr →
      nameTier shortH shortF longH longF thr name = ⟨shortH, shortF, false⟩) ∧
    (name.length = thr →
      nameTier shortH shortF longH longF thr name = ⟨shortH, shortF, false⟩) ∧
    "Dr. Evelyn Alexandra Montgomery-Whitfield".length = 41 ∧
    nameTier shortH shortF longH longF 22 "Dr. Evelyn Alexandra Montgomery-Whitfield"
      = ⟨longH, longF, true⟩ ∧
    nameTier shortH shortF longH longF 22 "Bo" = ⟨shortH, shortF, false⟩ := by
  refine ⟨fun h => ?_, fun h => ?_, fun h => ?_, by decide, ?_, ?_⟩
  · rw [nameTier, if_pos h]
  · rw [nameTier, if_neg (not_lt.2 h)]
  · rw [nameTier, if_neg (by omega)]
  · rw [nameTier, if_pos (by decide)]
  · rw [nameTier, if_neg (by decide)]

theorem c5_witness :
    nameTier 1 2 3 4 22 "Dr. Evelyn Alexandra Montgomery-Whitfield" = ⟨3, 4, true⟩ ∧
    nameTier 1 2 3 4 22 "Bo" = ⟨1, 2, false⟩ :=
  ⟨(c5_name_tier_selection 1 2 3 4 22 "Dr. Evelyn Alexandra Montgomery-Whitfield").1
    (by decide),
   (c5_name_tier_selection 1 2 3 4 22 "Bo").2.1 (by decide)⟩

/-! ## C10 — the filename sanitizer is not injective -/

/-- C10: `_sanitize_filename` is not injective: "Alice" and "alice"
collide (case folding), and "Bob Smith" and "Bob_Smith" collide (space
versus underscore), so two distinct records can target the same output
file. -/
theorem c10_sanitize_not_injective :
    sanitizeFilename "Alice" = sanitizeFilename "alice" ∧ "Alice" ≠ "alice" ∧
    sanitizeFilename "Bob Smith" = sanitizeFilename "Bob_Smith" ∧
    "Bob Smith" ≠ "Bob_Smith" ∧
    ¬ Function.Injective sanitizeFilename := by
  refine ⟨by decide, by decide, by decide, by decide, fun h => ?_⟩
  have hc := h (show sanitizeFilename "Alice" = sanitizeFilename "alice" by decide)
  exact absurd hc (by decide)

/-! ## C3 — single-line auto-shrink fitter -/

/-- C3 counterexample: with `u = 2`, `s = 1`, `box_width = 1`,
`padding = 3` the available width is `-5 < measured = 2`, the claim's
hypotheses hold, yet the code computes `int(1 * (-5/2)) = -2` (truncation
toward zero) while `floor` gives `-3`, and the re-measured width `-4`
exceeds the available width `-5`. -/
theorem c3_counterexample :
    availWidth 1 3 < measuredWidth 2 1 ∧
    autoShrinkSize 2 1 1 3 = -2 ∧
    ⌊((1 : ℤ) : ℚ) * (availWidth 1 3 / measuredWidth 2 1)⌋ = -3 ∧
    autoShrinkSize 2 1 1 3 ≠ ⌊((1 : ℤ) : ℚ) * (availWidth 1 3 / measuredWidth 2 1)⌋ ∧
    availWidth 1 3 < measuredWidth 2 (autoShrinkSize 2 1 1 3) := by
  have e1 : autoShrinkSize 2 1 1 3 = -2 := by
    rw [autoShrinkSize, if_pos (by norm_num [availWidth, measuredWidth])]
    rw [pytrunc_neg _ (by norm_num [availWidth, measuredWidth])]
    norm_num [availWidth, measuredWidth]
  have e2 : ⌊((1 : ℤ) : ℚ) * (availWidth 1 3 / measuredWidth 2 1)⌋ = -3 := by
    norm_num [availWidth, measuredWidth]
  refine ⟨by norm_num [availWidth, measuredWidth], e1, e2, ?_, ?_⟩
  · rw [e1, e2]; decide
  · rw [e1]; norm_num [availWidth, measuredWidth]

/-- C3 (amended with a nonnegative available width, which the
counterexample's negative-padding-slack case violates): when the measured
width at the starting size exceeds `box_width - 2*padding ≥ 0`, the new
size is `floor(s * avail / measured)`, it is strictly smaller than `s`,
and the re-measured width at the new size is at most the available width;
when the measured width fits, the size is unchanged. -/
theorem c3_auto_shrink_fitter (u : ℚ) (s : ℤ) (w pad : ℚ)
    (hs : 1 ≤ s) (havail : 0 ≤ availWidth w pad) :
    (availWidth w pad < measuredWidth u s →
      autoShrinkSize u s w pad = ⌊(s : ℚ) * (availWidth w pad / measuredWidth u s)⌋ ∧
      autoShrinkSize u s w pad < s ∧
      measuredWidth u (autoShrinkSize u s w pad) ≤ availWidth w pad) ∧
    (measuredWidth u s ≤ availWidth w pad → autoShrinkSize u s w pad = s) := by
  constructor
  · intro hlt
    have hM : 0 < measuredWidth u s := lt_of_le_of_lt havail hlt
    have hsQ : (0 : ℚ) < (s : ℚ) := by exact_mod_cast lt_of_lt_of_le one_pos hs
    have hu : 0 < u := by
      have hMs : measuredWidth u s = (s : ℚ) * u := rfl
      nlinarith [hM]
    have hx0 : 0 ≤ (s : ℚ) * (availWidth w pad / measuredWidth u s) :=
      mul_nonneg (le_of_lt hsQ) (div_nonneg havail (le_of_lt hM))
    have hEq : autoShrinkSize u s w pad
        = ⌊(s : ℚ) * (availWidth w pad / measuredWidth u s)⌋ := by
      rw [autoShrinkSize, if_pos hlt, pytrunc_nonneg _ hx0]
    have hxlt : (s : ℚ) * (availWidth w pad / measuredWidth u s) < (s : ℚ) := by
      have h1 : availWidth w pad / measuredWidth u s < 1 := (div_lt_one hM).2 hlt
      nlinarith
    have hfl : ⌊(s : ℚ) * (availWidth w pad / measuredWidth u s)⌋ < s :=
      Int.floor_lt.2 hxlt
    have hmeas : measuredWidth u (⌊(s : ℚ) * (availWidth w pad / measuredWidth u s)⌋)
        ≤ availWidth w pad := by
      have hle : ((⌊(s : ℚ) * (availWidth w pad / measuredWidth u s)⌋ : ℤ) : ℚ)
          ≤ (s : ℚ) * (availWidth w pad / measuredWidth u s) := Int.floor_le _
      have hAu : (s : ℚ) * (availWidth w pad / measuredWidth u s)
          = availWidth w pad / u := by
        rw [show measuredWidth u s = (s : ℚ) * u from rfl]
        field_simp
        ring
      calc measuredWidth u (⌊(s : ℚ) * (availWidth w pad / measuredWidth u s)⌋)
          = ((⌊(s : ℚ) * (availWidth w pad / measuredWidth u s)⌋ : ℤ) : ℚ) * u := rfl
        _ ≤ (availWidth w pad / u) * u := by
            rw [← hAu]; exact mul_le_mul_of_nonneg_right hle (le_of_lt hu)
        _ = availWidth w pad := div_mul_cancel₀ _ (ne_of_gt hu)
    exact ⟨hEq, hEq ▸ hfl, hEq ▸ hmeas⟩
  · intro hle
    rw [autoShrinkSize, if_neg (not_lt.2 hle)]

theorem c3_witness :
    autoShrinkSize 1 10 7 1 = ⌊((10 : ℤ) : ℚ) * (availWidth 7 1 / measuredWidth 1 10)⌋ ∧
    autoShrinkSize 1 10 7 1 < 10 ∧
    measuredWidth 1 (autoShrinkSize 1 10 7 1) ≤ availWidth 7 1 :=
  (c3_auto_shrink_fitter 1 10 7 1 (by norm_num) (by norm_num [availWidth])).1
    (by norm_num [availWidth, measuredWidth])

/-! ## C4 — section stacking geometry -/

lemma not_overlaps_below (a b : Rect) (h : a.y + a.h ≤ b.y) : ¬ overlaps a b :=
  fun hov => absurd hov.2.2.2 (not_lt.2 h)

/-- C4: the resolved section rectangles are stacked top-down starting at
`top_padding + top_margin`; each section's top equals the previous
section's bottom (photo, name, QR), the gap before the message is added
before the message top, each section's canonical y is the sum of the
earlier heights plus the paddings/gap, and no two section rectangles
overlap. -/
theorem c4_section_stacking (c : LayoutCfg)
    (hPhoto : 0 ≤ c.photoH) (hName : 0 ≤ c.nameH) (hQr : 0 ≤ c.qrH)
    (hGap : 0 ≤ c.gap) (hMsg : 0 ≤ c.msgH) :
    (yPhotoTop c = c.topPad + c.topMargin ∧
     yNameTop c = yPhotoTop c + c.photoH ∧
     yQrTop c = yNameTop c + c.nameH ∧
     yMessageTop c = yQrTop c + c.qrH + c.gap ∧
     yNameTop c = c.topPad + c.topMargin + c.photoH ∧
     yQrTop c = c.topPad + c.topMargin + c.photoH + c.nameH ∧
     yMessageTop c = c.topPad + c.topMargin + c.photoH + c.nameH + c.qrH + c.gap ∧
     yBottomTop c =
       c.topPad + c.topMargin + c.photoH + c.nameH + c.qrH + c.gap + c.msgH) ∧
    (¬ overlaps (photoRect c) (nameRect c) ∧
     ¬ overlaps (photoRect c) (qrRect c) ∧
     ¬ overlaps (photoRect c) (messageRect c) ∧
     ¬ overlaps (photoRect c) (bottomRect c) ∧
     ¬ overlaps (nameRect c) (qrRect c) ∧
     ¬ overlaps (nameRect c) (messageRect c) ∧
     ¬ overlaps (nameRect c) (bottomRect c) ∧
     ¬ overlaps (qrRect c) (messageRect c) ∧
     ¬ overlaps (qrRect c) (bottomRect c) ∧
     ¬ overlaps (messageRect c) (bottomRect c)) := by
  constructor
  · exact ⟨rfl, rfl, rfl, rfl, rfl, rfl, rfl, rfl⟩
  · refine ⟨?_, ?_, ?_, ?_, ?_, ?_, ?_, ?_, ?_, ?_⟩ <;>
      apply not_overlaps_below <;>
      simp [photoRect, nameRect, qrRect, messageRect, bottomRect,
            yBottomTop, yMessageTop, yQrTop, yNameTop, yPhotoTop] <;>
      linarith

def cfgEx : LayoutCfg := ⟨216, 504, 10, 2, 3, 12, 180, 40, 5, 120, 8, 100, 20, 6⟩

theorem c4_witness :
    yMessageTop cfgEx = 362 ∧ ¬ overlaps (photoRect cfgEx) (messageRect cfgEx) := by
  have h := c4_section_stacking cfgEx (by norm_num [cfgEx]) (by norm_num [cfgEx])
    (by norm_num [cfgEx]) (by norm_num [cfgEx]) (by norm_num [cfgEx])
  refine ⟨?_, h.2.2.2.1⟩
  rw [h.1.2.2.2.2.2.2.1]
  norm_num [cfgEx]

/-! ## C6 — image fill placement -/

/-- C6 counterexample: the raster backend truncates each final dimension
independently with `int(...)`, so the drawn size is not exactly
`(img_width*scale, img_height*scale)` and the aspect ratio is not
preserved exactly: a 3×7 image in a 100×50 box has fill scale 100/3 and
is drawn at 100×233, while the exact height would be 700/3, and
100·7 ≠ 3·233. -/
theorem c6_counterexample :
    pngFinalW 100 50 3 7 = 100 ∧
    pngFinalH 100 50 3 7 = 233 ∧
    ((pngFinalH 100 50 3 7 : ℚ) ≠ ((7 : ℕ) : ℚ) * pngFillScale 100 50 3 7) ∧
    pngFinalW 100 50 3 7 * 7 ≠ 3 * pngFinalH 100 50 3 7 := by
  have hscale : pngFillScale 100 50 3 7 = 100 / 3 := by
    rw [pngFillScale]
    push_cast
    rw [max_eq_left (by norm_num)]
  have hw : pngFinalW 100 50 3 7 = 100 := by
    rw [pngFinalW, hscale, pytrunc_nonneg _ (by norm_num)]
    push_cast
    norm_num
  have hh : pngFinalH 100 50 3 7 = 233 := by
    rw [pngFinalH, hscale, pytrunc_nonneg _ (by norm_num)]
    push_cast
    norm_num
  refine ⟨hw, hh, ?_, ?_⟩
  · rw [hh, hscale]
    push_cast
    norm_num
  · rw [hw, hh]
    decide

/-- C6 (amended: the vector backend draws the image at exactly
`(img_width*scale, img_height*scale)` with the aspect ratio preserved
exactly and the image centered horizontally; the raster backend truncates
each final dimension to a whole pixel, so its drawn size agrees with the
exact one only to within one pixel per dimension).  The concrete 200×100
and 100×200 examples hold exactly in both backends. -/
theorem c6_fill_placement :
    (∀ boxW boxH imgW imgH : ℚ,
      pdfFinalW boxW boxH imgW imgH * imgH = imgW * pdfFinalH boxW boxH imgW imgH) ∧
    (∀ x w fw : ℚ, pdfImgX x w fw + fw / 2 = x + w / 2) ∧
    fillScale 100 50 200 100 = 1 / 2 ∧
    pdfFinalW 100 50 200 100 = 100 ∧ pdfFinalH 100 50 200 100 = 50 ∧
    fillScale 100 50 100 200 = 1 ∧
    pdfFinalW 100 50 100 200 = 100 ∧ pdfFinalH 100 50 100 200 = 200 ∧
    pngFinalW 100 50 200 100 = 100 ∧ pngFinalH 100 50 200 100 = 50 ∧
    pngFinalW 100 50 100 200 = 100 ∧ pngFinalH 100 50 100 200 = 200 ∧
    (∀ (w h : ℤ) (iw ih : ℕ), 0 ≤ (iw : ℚ) * pngFillScale w h iw ih →
      (pngFinalW w h iw ih : ℚ) ≤ (iw : ℚ) * pngFillScale w h iw ih ∧
      (iw : ℚ) * pngFillScale w h iw ih < (pngFinalW w h iw ih : ℚ) + 1) ∧
    (∀ (w h : ℤ) (iw ih : ℕ), 0 ≤ (ih : ℚ) * pngFillScale w h iw ih →
      (pngFinalH w h iw ih : ℚ) ≤ (ih : ℚ) * pngFillScale w h iw ih ∧
      (ih : ℚ) * pngFillScale w h iw ih < (pngFinalH w h iw ih : ℚ) + 1) := by
  have hs1 : fillScale 100 50 200 100 = 1 / 2 := by
    rw [fillScale, show (100 : ℚ) / 200 = 1 / 2 by norm_num,
        show (50 : ℚ) / 100 = 1 / 2 by norm_num, max_self]
  have hs2 : fillScale 100 50 100 200 = 1 := by
    rw [fillScale, max_eq_left (by norm_num)]
    norm_num
  have hp1 : pngFillScale 100 50 200 100 = 1 / 2 := by
    rw [pngFillScale]
    push_cast
    rw [show (100 : ℚ) / 200 = 1 / 2 by norm_num,
        show (50 : ℚ) / 100 = 1 / 2 by norm_num, max_self]
  have hp2 : pngFillScale 100 50 100 200 = 1 := by
    rw [pngFillScale]
    push_cast
    rw [max_eq_left (by norm_num)]
    norm_num
  refine ⟨fun boxW boxH imgW imgH => by rw [pdfFinalW, pdfFinalH]; ring,
    fun x w fw => by rw [pdfImgX]; ring,
    hs1, by rw [pdfFinalW, hs1]; norm_num, by rw [pdfFinalH, hs1]; norm_num,
    hs2, by rw [pdfFinalW, hs2]; norm_num, by rw [pdfFinalH, hs2]; norm_num,
    ?_, ?_, ?_, ?_, ?_, ?_⟩
  · rw [pngFinalW, hp1, pytrunc_nonneg _ (by norm_num)]
    push_cast
    norm_num
  · rw [pngFinalH, hp1, pytrunc_nonneg _ (by norm_num)]
    push_cast
    norm_num
  · rw [pngFinalW, hp2, pytrunc_nonneg _ (by norm_num)]
    push_cast
    norm_num
  · rw [pngFinalH, hp2, pytrunc_nonneg _ (by norm_num)]
    push_cast
    norm_num
  · intro w h iw ih hq
    rw [pngFinalW, pytrunc_nonneg _ hq]
    exact ⟨Int.floor_le _, Int.lt_floor_add_one _⟩
  · intro w h iw ih hq
    rw [pngFinalH, pytrunc_nonneg _ hq]
    exact ⟨Int.floor_le _, Int.lt_floor_add_one _⟩

theorem c6_witness :
    ((pngFinalW 400 200 3 7 : ℚ) ≤ ((3 : ℕ) : ℚ) * pngFillScale 400 200 3 7 ∧
      ((3 : ℕ) : ℚ) * pngFillScale 400 200 3 7 < (pngFinalW 400 200 3 7 : ℚ) + 1) ∧
    ((pngFinalH 400 200 3 7 : ℚ) ≤ ((7 : ℕ) : ℚ) * pngFillScale 400 200 3 7 ∧
      ((7 : ℕ) : ℚ) * pngFillScale 400 200 3 7 < (pngFinalH 400 200 3 7 : ℚ) + 1) := by
  have hsc : pngFillScale 400 200 3 7 = 400 / 3 := by
    rw [pngFillScale]
    push_cast
    rw [max_eq_left (by norm_num)]
  obtain ⟨_, _, _, _, _, _, _, _, _, _, _, _, h13, h14⟩ := c6_fill_placement
  exact ⟨h13 400 200 3 7 (by rw [hsc]; norm_num), h14 400 200 3 7 (by rw [hsc]; norm_num)⟩

/-! ## C7 / C8 — run-level error handling -/

lemma runStep_eq (cfg : RunCfg) (a b : ℕ) (r : Row) :
    runStep cfg (a, b) r = if rowOk cfg r then (a + 1, b) else (a, b + 1) := by
  rw [runStep, rowOk]
  by_cases h1 : pyStrip r.name = ""
  · simp [h1]
  · by_cases h2 : pyStrip r.image = ""
    · simp [h1, h2]
    · by_cases h3 : (generateCard cfg (pyStrip r.name)).2 <;> simp [h1, h2, h3]

lemma runSummary_fold (cfg : RunCfg) :
    ∀ (rows : List Row) (a b : ℕ),
      rows.foldl (runStep cfg) (a, b) =
        (a + (rows.filter (rowOk cfg)).length,
         b + (rows.filter fun r => !(rowOk cfg r)).length) := by
  intro rows
  induction rows with
  | nil => intro a b; simp
  | cons r rows ih =>
    intro a b
    rw [List.foldl_cons, runStep_eq]
    by_cases h : rowOk cfg r
    · rw [if_pos h, ih]
      simp [List.filter_cons, h]
      omega
    · rw [if_neg h, ih]
      simp only [List.filter_cons]
      simp [h]
      omega

def cfgFull : RunCfg :=
  ⟨some 216, some 504, some 10, some 12, some 180, some 120, some 8, some 100,
   some 40, some 18, some 60, some 14, some 22, some 0, some 80,
   some "Welcome!", some 12⟩

/-- C8 counterexample: a batch with one failing record (empty name field)
reports `fail_count = 1`, yet the process exit status modelled from
`main` (which never calls `sys.exit` after the summary) is 0, not
non-zero. -/
theorem c8_counterexample :
    (runSummary cfgFull [⟨"", "img.png"⟩, ⟨"Alice", "a.png"⟩]).2 = 1 ∧
    0 < (runSummary cfgFull [⟨"", "img.png"⟩, ⟨"Alice", "a.png"⟩]).2 ∧
    mainExitCode cfgFull [⟨"", "img.png"⟩, ⟨"Alice", "a.png"⟩] = 0 := by
  refine ⟨?_, ?_, rfl⟩ <;> decide

/-- C8 (amended: after processing all records the run reports
`success_count` = number of records that succeed and `fail_count` =
number that fail, summing to the total; but the process exit status is 0
regardless of failures — `main` never translates the counts into a
non-zero exit). -/
theorem c8_run_summary (cfg : RunCfg) (rows : List Row) :
    (runSummary cfg rows).1 = (rows.filter (rowOk cfg)).length ∧
    (runSummary cfg rows).2 = (rows.filter fun r => !(rowOk cfg r)).length ∧
    (runSummary cfg rows).1 + (runSummary cfg rows).2 = rows.length ∧
    mainExitCode cfg rows = 0 := by
  have h := runSummary_fold cfg rows 0 0
  rw [runSummary, h]
  refine ⟨by simp, by simp, ?_, rfl⟩
  have hlen := List.length_eq_length_filter_add (l := rows) (rowOk cfg)
  simp only [Nat.zero_add]
  omega

def cfgNoMsg : RunCfg := { cfgFull with messageText := none }

/-- C7 counterexample: with every configuration key present except
`message_text`, the card run does not abort and rendering is not
prevented: drawing primitives (page background, photo, name box, QR)
execute before the missing key is read, the per-card exception handler
catches the failure, and the batch continues through both records,
counting them as failures. -/
theorem c7_counterexample :
    (generateCard cfgNoMsg "Alice").2 = false ∧
    (generateCard cfgNoMsg "Alice").1 ≠ [] ∧
    DrawOp.pageBg ∈ (generateCard cfgNoMsg "Alice").1 ∧
    DrawOp.photoImage ∈ (generateCard cfgNoMsg "Alice").1 ∧
    runSummary cfgNoMsg [⟨"Alice", "a.png"⟩, ⟨"Bob", "b.png"⟩] = (0, 2) := by
  refine ⟨?_, ?_, ?_, ?_, ?_⟩ <;> decide

/-- C7 (amended: a missing `message_text` or `message_font_size` key is
only detected mid-paint — after the background, photo, name box and QR
primitives have executed — the failure is caught per card (no output
document is saved for it, since saving happens last), the card is counted
as a failure, and the run continues over all remaining records instead of
aborting). -/
theorem c7_missing_message_key (cfg : RunCfg) (name : String) (rows : List Row)
    (h : cfg.messageText = none ∨ cfg.messageFontSize = none) :
    (generateCard cfg name).2 = false ∧
    DrawOp.msgText ∉ (generateCard cfg name).1 ∧
    (earlyConfigOk cfg name = true → cfg.qrCodeSize ≠ none →
      (generateCard cfg name).1 =
        [DrawOp.pageBg, DrawOp.photoImage, DrawOp.nameBoxFill, DrawOp.nameText,
         DrawOp.qrFill, DrawOp.qrImage, DrawOp.msgFill]) ∧
    (runSummary cfg rows).1 + (runSummary cfg rows).2 = rows.length := by
  have hsum : (runSummary cfg rows).1 + (runSummary cfg rows).2 = rows.length := by
    rw [runSummary, runSummary_fold cfg rows 0 0]
    have hlen := List.length_eq_length_filter_add (l := rows) (rowOk cfg)
    simp only [Nat.zero_add]
    omega
  have hmf : (cfg.messageText.isSome && cfg.messageFontSize.isSome) = false := by
    rcases h with h | h <;> simp [h]
  have hcard : (generateCard cfg name).2 = false ∧
      DrawOp.msgText ∉ (generateCard cfg name).1 ∧
      (earlyConfigOk cfg name = true → cfg.qrCodeSize ≠ none →
        (generateCard cfg name).1 =
          [DrawOp.pageBg, DrawOp.photoImage, DrawOp.nameBoxFill, DrawOp.nameText,
           DrawOp.qrFill, DrawOp.qrImage, DrawOp.msgFill]) := by
    rw [generateCard]
    by_cases he : earlyConfigOk cfg name
    · rw [if_pos he]
      by_cases hq : cfg.qrCodeSize.isSome
      · rw [if_pos hq, if_neg (by rw [hmf]; exact Bool.false_ne_true)]
        exact ⟨rfl, by decide, fun _ _ => rfl⟩
      · rw [if_neg hq]
        exact ⟨rfl, by decide,
          fun _ hq2 => absurd (Option.isSome_iff_ne_none.2 hq2) hq⟩
    · rw [if_neg he]
      exact ⟨rfl, by decide, fun he2 _ => absurd he2 he⟩
  exact ⟨hcard.1, hcard.2.1, hcard.2.2, hsum⟩

theorem c7_witness :
    (generateCard cfgNoMsg "Bob").2 = false ∧
    DrawOp.msgText ∉ (generateCard cfgNoMsg "Bob").1 ∧
    (generateCard cfgNoMsg "Bob").1 =
      [DrawOp.pageBg, DrawOp.photoImage, DrawOp.nameBoxFill, DrawOp.nameText,
       DrawOp.qrFill, DrawOp.qrImage, DrawOp.msgFill] ∧
    (runSummary cfgNoMsg [⟨"Bob", "b.png"⟩]).1 +
      (runSummary cfgNoMsg [⟨"Bob", "b.png"⟩]).2 = 1 := by
  have h := c7_missing_message_key cfgNoMsg "Bob" [⟨"Bob", "b.png"⟩] (Or.inl rfl)
  exact ⟨h.1, h.2.1, h.2.2.1 (by decide) (by decide), h.2.2.2⟩

/-! ## C1 — optimal two-line breaking -/

lemma tokenizeAux_pos :
    ∀ (cs cur : List Char) (acc : List String),
      (∀ t ∈ acc, 0 < t.length) → ∀ t ∈ tokenizeAux cs cur acc, 0 < t.length := by
  intro cs
  induction cs with
  | nil =>
    intro cur acc hacc t ht
    rw [tokenizeAux] at ht
    by_cases hc : cur ≠ []
    · rw [if_pos hc] at ht
      rcases List.mem_append.1 ht with h | h
      · exact hacc t h
      · rcases List.mem_singleton.1 h with rfl
        exact List.length_pos.2 hc
    · rw [if_neg hc] at ht
      exact hacc t ht
  | cons c cs ih =>
    intro cur acc hacc t ht
    rw [tokenizeAux] at ht
    by_cases hdelim : c = ' ' ∨ c = ','
    · rw [if_pos hdelim] at ht
      by_cases hc : cur ≠ []
      · rw [if_pos hc] at ht
        by_cases hcomma : c = ','
        · rw [if_pos hcomma] at ht
          refine ih _ _ ?_ t ht
          intro u hu
          rcases List.mem_append.1 hu with h | h
          · exact hacc u h
          · rcases List.mem_singleton.1 h with rfl
            simp [String.length]
        · rw [if_neg hcomma] at ht
          refine ih _ _ ?_ t ht
          intro u hu
          rcases List.mem_append.1 hu with h | h
          · exact hacc u h
          · rcases List.mem_singleton.1 h with rfl
            exact List.length_pos.2 hc
      · rw [if_neg hc] at ht
        exact ih _ _ hacc t ht
    · rw [if_neg hdelim] at ht
      exact ih _ _ hacc t ht

lemma tokenize_pos (text : String) : ∀ t ∈ tokenize text, 0 < t.length :=
  tokenizeAux_pos text.data [] [] (by simp)

lemma length_le_joinSpace_cons (t : String) (ts : List String) :
    t.length ≤ (joinSpace (t :: ts)).length := by
  cases ts with
  | nil => simp [joinSpace]
  | cons u us =>
    simp [joinSpace, String.length_append]
    omega

lemma firstLen_pos (toks : List String) (htoks : ∀ t ∈ toks, 0 < t.length)
    (i : Nat) (hi : 1 ≤ i) (hn : toks ≠ []) : 0 < firstLen toks i := by
  cases toks with
  | nil => exact absurd rfl hn
  | cons t ts =>
    cases i with
    | zero => omega
    | succ j =>
      have h1 : 0 < t.length := htoks t (List.mem_cons_self t ts)
      have h2 : t.length ≤ (joinSpace (t :: ts.take j)).length :=
        length_le_joinSpace_cons t (ts.take j)
      rw [firstLen, List.take_succ_cons]
      omega

lemma bestStep_fold_spec (f : Nat → Nat) (thr : Nat) :
    ∀ (l : List Nat) (b : Nat × Nat),
      (l.foldl (bestStep f thr) b = b ∨
        ((l.foldl (bestStep f thr) b).1 ∈ l ∧
         (l.foldl (bestStep f thr) b).2 = f (l.foldl (bestStep f thr) b).1 ∧
         (l.foldl (bestStep f thr) b).2 ≤ thr)) ∧
      b.2 ≤ (l.foldl (bestStep f thr) b).2 ∧
      (∀ i ∈ l, f i ≤ thr → f i ≤ (l.foldl (bestStep f thr) b).2) := by
  intro l
  induction l with
  | nil => intro b; exact ⟨Or.inl rfl, le_refl _, by simp⟩
  | cons i l ih =>
    intro b
    rw [List.foldl_cons]
    obtain ⟨h1, h2, h3⟩ := ih (bestStep f thr b i)
    refine ⟨?_, ?_, ?_⟩
    · rcases h1 with h1 | h1
      · rw [h1, bestStep]
        by_cases hc : f i ≤ thr ∧ b.2 < f i
        · rw [if_pos hc]
          exact Or.inr ⟨List.mem_cons_self _ _, rfl, hc.1⟩
        · rw [if_neg hc]
          exact Or.inl rfl
      · exact Or.inr ⟨List.mem_cons_of_mem _ h1.1, h1.2.1, h1.2.2⟩
    · refine le_trans ?_ h2
      rw [bestStep]
      by_cases hc : f i ≤ thr ∧ b.2 < f i
      · rw [if_pos hc]
        exact le_of_lt hc.2
      · rw [if_neg hc]
    · intro j hj hfj
      rcases List.mem_cons.1 hj with rfl | hj
      · refine le_trans ?_ h2
        rw [bestStep]
        by_cases hc : f j ≤ thr ∧ b.2 < f j
        · rw [if_pos hc]
        · rw [if_neg hc]
          push_neg at hc
          exact hc hfj
      · exact h3 j hj hfj

lemma bestBreak_valid (toks : List String) (thr : Nat) (hn : 2 ≤ toks.length)
    (htoks : ∀ t ∈ toks, 0 < t.length)
    (hex : ∃ i, 1 ≤ i ∧ i < toks.length ∧ firstLen toks i ≤ thr) :
    1 ≤ (bestBreak toks thr).1 ∧ (bestBreak toks thr).1 < toks.length ∧
    firstLen toks (bestBreak toks thr).1 ≤ thr ∧
    (∀ i, 1 ≤ i → i < toks.length → firstLen toks i ≤ thr →
      firstLen toks i ≤ firstLen toks (bestBreak toks thr).1) := by
  obtain ⟨i0, hi1, hi2, hi3⟩ := hex
  have hfold : bestBreak toks thr
      = (List.range' 1 (toks.length - 1)).foldl (bestStep (firstLen toks) thr) (0, 0) := rfl
  have hmem : i0 ∈ List.range' 1 (toks.length - 1) := by
    rw [List.mem_range'_1]
    omega
  obtain ⟨h1, _, h3⟩ :=
    bestStep_fold_spec (firstLen toks) thr (List.range' 1 (toks.length - 1)) (0, 0)
  have hpos : 0 < firstLen toks i0 :=
    firstLen_pos toks htoks i0 hi1 (by intro hnil; rw [hnil] at hn; simp at hn)
  have hr2 : 0 < (bestBreak toks thr).2 := by
    rw [hfold]
    exact lt_of_lt_of_le hpos (h3 i0 hmem hi3)
  rcases h1 with h1 | h1
  · rw [hfold, h1] at hr2
    simp at hr2
  · obtain ⟨hmem1, hval, hthr⟩ := h1
    rw [List.mem_range'_1] at hmem1
    rw [← hfold] at hmem1 hval hthr
    refine ⟨hmem1.1, by omega, by rw [← hval]; exact hthr, ?_⟩
    intro i hia hib hic
    have hle := h3 i (by rw [List.mem_range'_1]; omega) hic
    rw [← hfold, hval] at hle
    exact hle

lemma bestBreak_none (toks : List String) (thr : Nat) (hn : 2 ≤ toks.length)
    (h : ∀ i, 1 ≤ i → i < toks.length → thr < firstLen toks i) :
    bestBreak toks thr = (0, 0) := by
  have hfold : bestBreak toks thr
      = (List.range' 1 (toks.length - 1)).foldl (bestStep (firstLen toks) thr) (0, 0) := rfl
  obtain ⟨h1, _, _⟩ :=
    bestStep_fold_spec (firstLen toks) thr (List.range' 1 (toks.length - 1)) (0, 0)
  rcases h1 with h1 | h1
  · rw [hfold, h1]
  · obtain ⟨hmem, hval, hthr⟩ := h1
    rw [List.mem_range'_1] at hmem
    rw [← hfold] at hmem hval hthr
    have hcontra := h _ hmem.1 (by omega)
    rw [← hval] at hcontra
    omega

/-- C1: for `max_lines = 2`, if the tokenizer yields at most one token the
text is returned unchanged as a single line; otherwise, among the split
points in `[1, token_count)` whose first line fits `char_threshold`, the
one maximizing the first line's length is chosen, with a midpoint
(`token_count // 2`) fallback when no split point fits; and
`"Alice, Bob Carter"` at threshold 10 breaks into
`["Alice, Bob", "Carter"]`. -/
theorem c1_two_line_break (text : String) (thr : Nat) :
    ((tokenize text).length ≤ 1 → optimalLineBreak text thr 2 = [text]) ∧
    (2 ≤ (tokenize text).length →
      ((∃ i, 1 ≤ i ∧ i < (tokenize text).length ∧ firstLen (tokenize text) i ≤ thr) →
        ∃ b, 1 ≤ b ∧ b < (tokenize text).length ∧ firstLen (tokenize text) b ≤ thr ∧
          (∀ i, 1 ≤ i → i < (tokenize text).length → firstLen (tokenize text) i ≤ thr →
            firstLen (tokenize text) i ≤ firstLen (tokenize text) b) ∧
          optimalLineBreak text thr 2 =
            [joinSpace ((tokenize text).take b), joinSpace ((tokenize text).drop b)]) ∧
      ((∀ i, 1 ≤ i → i < (tokenize text).length → thr < firstLen (tokenize text) i) →
        optimalLineBreak text thr 2 =
          [joinSpace ((tokenize text).take ((tokenize text).length / 2)),
           joinSpace ((tokenize text).drop ((tokenize text).length / 2))])) ∧
    optimalLineBreak "Alice, Bob Carter" 10 2 = ["Alice, Bob", "Carter"] := by
  refine ⟨?_, ?_, by decide⟩
  · intro h
    rw [optimalLineBreak]
    rcases Nat.le_one_iff_eq_zero_or_eq_one.1 h with h0 | h1
    · rw [if_pos h0]
    · rw [if_neg (by omega), if_pos h1]
  · intro hn
    have h0 : ¬ ((tokenize text).length = 0) := by omega
    have h1 : ¬ ((tokenize text).length = 1) := by omega
    constructor
    · intro hex
      obtain ⟨hb1, hb2, hb3, hbmax⟩ :=
        bestBreak_valid (tokenize text) thr hn (tokenize_pos text) hex
      refine ⟨(bestBreak (tokenize text) thr).1, hb1, hb2, hb3, hbmax, ?_⟩
      rw [optimalLineBreak, if_neg h0, if_neg h1, if_pos rfl, if_pos (by omega)]
    · intro hno
      have hzero := bestBreak_none (tokenize text) thr hn hno
      rw [optimalLineBreak, if_neg h0, if_neg h1, if_pos rfl,
          if_neg (by rw [hzero]; simp)]

theorem c1_witness :
    optimalLineBreak "Supercalifragilisticexpialidocious" 9 2
      = ["Supercalifragilisticexpialidocious"] ∧
    (∃ b, 1 ≤ b ∧ b < (tokenize "Alice, Bob Carter").length ∧
      firstLen (tokenize "Alice, Bob Carter") b ≤ 10 ∧
      (∀ i, 1 ≤ i → i < (tokenize "Alice, Bob Carter").length →
        firstLen (tokenize "Alice, Bob Carter") i ≤ 10 →
        firstLen (tokenize "Alice, Bob Carter") i
          ≤ firstLen (tokenize "Alice, Bob Carter") b) ∧
      optimalLineBreak "Alice, Bob Carter" 10 2 =
        [joinSpace ((tokenize "Alice, Bob Carter").take b),
         joinSpace ((tokenize "Alice, Bob Carter").drop b)]) :=
  ⟨(c1_two_line_break "Supercalifragilisticexpialidocious" 9).1 (by decide),
   ((c1_two_line_break "Alice, Bob Carter" 10).2.1 (by decide)).1
     ⟨2, by decide, by decide, by decide⟩⟩

/-! ## C9 — greedy packer for other line counts -/

lemma greedyGo_spec (thr maxLines : Nat) :
    ∀ (ts cur : List String) (gl : List (List String)),
      (∀ g ∈ gl, g ≠ []) →
      ∃ gr : List (List String), (∀ g ∈ gr, g ≠ []) ∧
        greedyGo thr maxLines ts cur (gl.map joinSpace) = gr.map joinSpace ∧
        ∃ pre suf, gr.flatten = gl.flatten ++ pre ∧ cur ++ ts = pre ++ suf := by
  intro ts
  induction ts with
  | nil =>
    intro cur gl hgl
    rw [greedyGo]
    by_cases hc : cur ≠ [] ∧ (gl.map joinSpace).length < maxLines
    · rw [if_pos hc]
      refine ⟨gl ++ [cur], ?_, by simp, cur, [], by simp, by simp⟩
      intro g hg
      rcases List.mem_append.1 hg with h | h
      · exact hgl g h
      · rcases List.mem_singleton.1 h with rfl
        exact hc.1
    · rw [if_neg hc]
      exact ⟨gl, hgl, rfl, [], cur, by simp, by simp⟩
  | cons t ts ih =>
    intro cur gl hgl
    rw [greedyGo]
    by_cases hfit : (joinSpace (cur ++ [t])).length ≤ thr
    · rw [if_pos hfit]
      obtain ⟨gr, h1, h2, pre, suf, h3, h4⟩ := ih (cur ++ [t]) gl hgl
      refine ⟨gr, h1, h2, pre, suf, h3, ?_⟩
      rw [List.append_cons]
      exact h4
    · rw [if_neg hfit]
      by_cases hcur : cur ≠ []
      · rw [if_pos hcur]
        have hglcur : ∀ g ∈ gl ++ [cur], g ≠ [] := by
          intro g hg
          rcases List.mem_append.1 hg with h | h
          · exact hgl g h
          · rcases List.mem_singleton.1 h with rfl
            exact hcur
        by_cases hbreak : maxLines ≤ (gl.map joinSpace ++ [joinSpace cur]).length
        · rw [if_pos hbreak]
          exact ⟨gl ++ [cur], hglcur, by simp, cur, t :: ts, by simp, rfl⟩
        · rw [if_neg hbreak]
          have hmap : gl.map joinSpace ++ [joinSpace cur] = (gl ++ [cur]).map joinSpace := by
            simp
          rw [hmap]
          obtain ⟨gr, h1, h2, pre, suf, h3, h4⟩ := ih [t] (gl ++ [cur]) hglcur
          refine ⟨gr, h1, h2, cur ++ pre, suf, ?_, ?_⟩
          · rw [h3]
            simp [List.append_assoc]
          · rw [List.append_assoc, ← h4]
            rfl
      · rw [if_neg hcur]
        push_neg at hcur
        have hglt : ∀ g ∈ gl ++ [[t]], g ≠ [] := by
          intro g hg
          rcases List.mem_append.1 hg with h | h
          · exact hgl g h
          · rcases List.mem_singleton.1 h with rfl
            simp
        by_cases hbreak : maxLines ≤ (gl.map joinSpace ++ [t]).length
        · rw [if_pos hbreak]
          refine ⟨gl ++ [[t]], hglt, by simp [joinSpace], [t], ts, by simp, by simp [hcur]⟩
        · rw [if_neg hbreak]
          have hmap : gl.map joinSpace ++ [t] = (gl ++ [[t]]).map joinSpace := by
            simp [joinSpace]
          rw [hmap]
          obtain ⟨gr, h1, h2, pre, suf, h3, h4⟩ := ih [] (gl ++ [[t]]) hglt
          refine ⟨gr, h1, h2, t :: pre, suf, ?_, ?_⟩
          · rw [h3]
            simp
          · simp only [List.nil_append] at h4
            rw [hcur, List.nil_append, List.cons_append, ← h4]

/-- C9 counterexample: the claim's "the returned list has at most
max_lines lines" fails for a single-token text with requested line count
0 (≠ 2): the degenerate branch returns the text as one line. -/
theorem c9_counterexample :
    optimalLineBreak "a" 5 0 = ["a"] ∧
    ¬ ((optimalLineBreak "a" 5 0).length ≤ 0) := by
  exact ⟨by decide, by decide⟩

/-- C9 (amended: for texts that tokenize to at least two tokens — texts
with at most one token take the degenerate single-line branch regardless
of the requested line count — and a requested line count other than 2,
the greedy packer returns at most `max_lines` lines, each line the
space-join of a non-empty group of consecutive tokens taken left to
right, and the consumed tokens form a prefix of the token list: excess
tokens are silently dropped). -/
theorem c9_greedy_packer (text : String) (thr maxLines : Nat)
    (hn : 2 ≤ (tokenize text).length) (hml : maxLines ≠ 2) :
    (optimalLineBreak text thr maxLines).length ≤ maxLines ∧
    (∃ groups : List (List String), (∀ g ∈ groups, g ≠ []) ∧
      optimalLineBreak text thr maxLines = groups.map joinSpace ∧
      ∃ rest, tokenize text = groups.flatten ++ rest) ∧
    optimalLineBreak "aa bb cc dd" 5 3 = ["aa bb", "cc dd"] ∧
    optimalLineBreak "aa bb cc dd" 2 3 = ["aa", "bb", "cc"] := by
  have h0 : ¬ ((tokenize text).length = 0) := by omega
  have h1 : ¬ ((tokenize text).length = 1) := by omega
  have hunfold : optimalLineBreak text thr maxLines
      = (greedyGo thr maxLines (tokenize text) [] []).take maxLines := by
    rw [optimalLineBreak, if_neg h0, if_neg h1, if_neg hml]
  refine ⟨?_, ?_, by decide, by decide⟩
  · rw [hunfold]
    exact List.length_take_le _ _
  · obtain ⟨gr, hne, heq, pre, suf, hflat, hsplit⟩ :=
      greedyGo_spec thr maxLines (tokenize text) [] [] (by simp)
    have hflat2 : gr.flatten = pre := by simpa using hflat
    have hsplit2 : tokenize text = pre ++ suf := by simpa using hsplit
    refine ⟨gr.take maxLines, fun g hg => hne g (List.mem_of_mem_take hg), ?_, ?_⟩
    · rw [hunfold]
      rw [show greedyGo thr maxLines (tokenize text) [] [] = gr.map joinSpace from heq]
      rw [List.map_take]
    · refine ⟨(gr.drop maxLines).flatten ++ suf, ?_⟩
      calc tokenize text = pre ++ suf := hsplit2
        _ = gr.flatten ++ suf := by rw [hflat2]
        _ = (gr.take maxLines ++ gr.drop maxLines).flatten ++ suf := by
              rw [List.take_append_drop]
        _ = (gr.take maxLines).flatten ++ ((gr.drop maxLines).flatten ++ suf) := by
              rw [List.flatten_append, List.append_assoc]

theorem c9_witness :
    (optimalLineBreak "aa bb cc dd" 2 3).length ≤ 3 ∧
    (∃ groups : List (List String), (∀ g ∈ groups, g ≠ []) ∧
      optimalLineBreak "aa bb cc dd" 2 3 = groups.map joinSpace ∧
      ∃ rest, tokenize "aa bb cc dd" = groups.flatten ++ rest) := by
  have h := c9_greedy_packer "aa bb cc dd" 2 3 (by decide) (by decide)
  exact ⟨h.1, h.2.1⟩

/-! ## C2 — cross-backend geometric equivalence -/

@[simp] lemma toQ_pageW (c : LayoutCfgN) : (toQ c).pageW = (c.pageW : ℚ) := rfl

@[simp] lemma toQ_pageH (c : LayoutCfgN) : (toQ c).pageH = (c.pageH : ℚ) := rfl

@[simp] lemma toQ_hPad (c : LayoutCfgN) : (toQ c).hPad = (c.hPad : ℚ) := rfl

@[simp] lemma toQ_topPad (c : LayoutCfgN) : (toQ c).topPad = (c.topPad : ℚ) := rfl

@[simp] lemma toQ_botPad (c : LayoutCfgN) : (toQ c).botPad = (c.botPad : ℚ) := rfl

@[simp] lemma toQ_topMargin (c : LayoutCfgN) : (toQ c).topMargin = (c.topMargin : ℚ) := rfl

@[simp] lemma toQ_photoH (c : LayoutCfgN) : (toQ c).photoH = (c.photoH : ℚ) := rfl

@[simp] lemma toQ_nameH (c : LayoutCfgN) : (toQ c).nameH = (c.nameH : ℚ) := rfl

@[simp] lemma toQ_qrH (c : LayoutCfgN) : (toQ c).qrH = (c.qrH : ℚ) := rfl

@[simp] lemma toQ_gap (c : LayoutCfgN) : (toQ c).gap = (c.gap : ℚ) := rfl

@[simp] lemma toQ_msgH (c : LayoutCfgN) : (toQ c).msgH = (c.msgH : ℚ) := rfl

@[simp] lemma toQ_bottomH (c : LayoutCfgN) : (toQ c).bottomH = (c.bottomH : ℚ) := rfl

/-- On integer configuration values the raster `scale()` truncation is
exact: `int(v * s) = v * s`. -/
lemma pngScale_cast (s v : ℕ) : ((pngScale s v : ℤ) : ℚ) = (v : ℚ) * s := by
  rw [pngScale, pytrunc_nonneg _ (by positivity)]
  rw [show (v : ℚ) * (s : ℚ) = ((v * s : ℕ) : ℚ) by push_cast; ring, Int.floor_natCast]
  push_cast
  ring

def cfg2N : LayoutCfgN := ⟨100, 1000, 0, 0, 0, 10, 50, 40, 0, 120, 8, 100, 0, 0⟩

/-- C2 counterexample: for the photo fill placement the two backends do
not agree up to the magnification factor.  With the configuration
`cfg2N` (photo box 100×50 starting at canonical y 10) and a 100×200
image, the fill scale is 1 and the final height 200: the vector backend
anchors the image's bottom to the section's bottom, putting its top at
canonical y −140, while the raster backend at factor 4 anchors the
image's top to the section's top at pixel y 40 ≠ 4·(−140). -/
theorem c2_counterexample :
    pngImgTop 4 cfg2N = 40 ∧
    (4 : ℚ) * pdfImgTopDownTop (toQ cfg2N) 100 200 = -560 ∧
    ((pngImgTop 4 cfg2N : ℚ) ≠ (4 : ℚ) * pdfImgTopDownTop (toQ cfg2N) 100 200) := by
  have h1 : pngImgTop 4 cfg2N = 40 := by
    rw [pngImgTop, pngYPhoto, show cfg2N.topPad = 0 from rfl,
        show cfg2N.topMargin = 10 from rfl]
    rw [pngScale, pngScale, pytrunc_nonneg _ (by positivity),
        pytrunc_nonneg _ (by positivity)]
    push_cast
    norm_num
  have hcw : contentW (toQ cfg2N) = 100 := by
    simp [contentW, cfg2N]
  have hph : (toQ cfg2N).photoH = 50 := by simp [cfg2N]
  have hpg : (toQ cfg2N).pageH = 1000 := by simp [cfg2N]
  have hy : pdfYPhoto (toQ cfg2N) = 940 := by
    simp [pdfYPhoto, yPhotoTop, cfg2N]
    norm_num
  have hfs : fillScale 100 (50 : ℚ) 100 200 = 1 := by
    rw [fillScale, max_eq_left (by norm_num)]
    norm_num
  have hfh : pdfFinalH (contentW (toQ cfg2N)) (toQ cfg2N).photoH 100 200 = 200 := by
    rw [hcw, hph, pdfFinalH, hfs]
    norm_num
  have h2 : pdfImgTopDownTop (toQ cfg2N) 100 200 = -140 := by
    rw [pdfImgTopDownTop, hpg, hy, hfh]
    norm_num
  refine ⟨h1, by rw [h2]; norm_num, ?_⟩
  rw [h1, h2]
  norm_num

/-- C2 (amended: for integer configurations with zero bottom padding the
two backends place the five section rectangles identically up to the
magnification factor — the raster canonical-top-down y of each section
equals the factor times the vector backend's bottom-up y translated to
top-down — and the content width scales likewise.  The photo placement
agrees vertically only when the fill scale is the height ratio
(`box_w/img_w ≤ box_h/img_h`, final height = box height); otherwise the
vector backend bottom-anchors while the raster top-anchors, as the
counterexample shows.  Horizontally the raster centering equals the
factor times the vector centering whenever the truncated final width is
exact and the centering division is even). -/
theorem c2_backend_equivalence (s : ℕ) (c : LayoutCfgN) (imgW imgH : ℕ)
    (hbp : c.botPad = 0) :
    ((pngYPhoto s c : ℚ) = s * ((toQ c).pageH - pdfYPhoto (toQ c) - (toQ c).photoH) ∧
     (pngYName s c : ℚ) = s * ((toQ c).pageH - pdfYName (toQ c) - (toQ c).nameH) ∧
     (pngYQr s c : ℚ) = s * ((toQ c).pageH - pdfYQr (toQ c) - (toQ c).qrH) ∧
     (pngYMessage s c : ℚ) = s * ((toQ c).pageH - pdfYMessage (toQ c) - (toQ c).msgH) ∧
     (pngYBottom s c : ℚ) = s * ((toQ c).pageH - pdfYBottom (toQ c) - (toQ c).bottomH) ∧
     (pngContentW s c : ℚ) = s * contentW (toQ c)) ∧
    (0 < imgH →
      contentW (toQ c) / imgW ≤ (toQ c).photoH / imgH →
      (pngImgTop s c : ℚ) = s * pdfImgTopDownTop (toQ c) imgW imgH) ∧
    (((pngFinalW (pngContentW s c) (pngScale s c.photoH) imgW imgH : ℤ) : ℚ)
        = s * pdfFinalW (contentW (toQ c)) (toQ c).photoH imgW imgH →
      (2 : ℤ) ∣ (pngContentW s c - pngFinalW (pngContentW s c) (pngScale s c.photoH) imgW imgH) →
      (pngImgX (pngScale s c.hPad) (pngContentW s c)
          (pngFinalW (pngContentW s c) (pngScale s c.photoH) imgW imgH) : ℚ)
        = s * pdfImgX (toQ c).hPad (contentW (toQ c))
            (pdfFinalW (contentW (toQ c)) (toQ c).photoH imgW imgH)) := by
  have hsecs : (pngYPhoto s c : ℚ)
      = s * ((toQ c).pageH - pdfYPhoto (toQ c) - (toQ c).photoH) := by
    simp only [pngYPhoto, pdfYPhoto, yPhotoTop, toQ_pageH, toQ_topPad, toQ_botPad,
      toQ_topMargin, toQ_photoH]
    push_cast [pngScale_cast]
    rw [hbp]
    push_cast
    ring
  have hcwQ : (pngContentW s c : ℚ) = s * contentW (toQ c) := by
    simp only [pngContentW, contentW, toQ_pageW, toQ_hPad]
    push_cast [pngScale_cast]
    ring
  refine ⟨⟨hsecs, ?_, ?_, ?_, ?_, hcwQ⟩, ?_, ?_⟩
  · simp only [pngYName, pngYPhoto, pdfYName, yNameTop, yPhotoTop, toQ_pageH,
      toQ_topPad, toQ_botPad, toQ_topMargin, toQ_photoH, toQ_nameH]
    push_cast [pngScale_cast]
    rw [hbp]
    push_cast
    ring
  · simp only [pngYQr, pngYName, pngYPhoto, pdfYQr, yQrTop, yNameTop, yPhotoTop,
      toQ_pageH, toQ_topPad, toQ_botPad, toQ_topMargin, toQ_photoH, toQ_nameH, toQ_qrH]
    push_cast [pngScale_cast]
    rw [hbp]
    push_cast
    ring
  · simp only [pngYMessage, pngYQr, pngYName, pngYPhoto, pdfYMessage, yMessageTop,
      yQrTop, yNameTop, yPhotoTop, toQ_pageH, toQ_topPad, toQ_botPad, toQ_topMargin,
      toQ_photoH, toQ_nameH, toQ_qrH, toQ_gap, toQ_msgH]
    push_cast [pngScale_cast]
    rw [hbp]
    push_cast
    ring
  · simp only [pngYBottom, pngYMessage, pngYQr, pngYName, pngYPhoto, pdfYBottom,
      yBottomTop, yMessageTop, yQrTop, yNameTop, yPhotoTop, toQ_pageH, toQ_topPad,
      toQ_botPad, toQ_topMargin, toQ_photoH, toQ_nameH, toQ_qrH, toQ_gap, toQ_msgH,
      toQ_bottomH]
    push_cast [pngScale_cast]
    rw [hbp]
    push_cast
    ring
  · intro hih hscale
    have hihQ : ((imgH : ℚ)) ≠ 0 := Nat.cast_ne_zero.2 (by omega)
    have hmax : fillScale (contentW (toQ c)) ((toQ c).photoH) imgW imgH
        = (toQ c).photoH / imgH := by
      rw [fillScale, max_eq_right hscale]
    have hfh : pdfFinalH (contentW (toQ c)) ((toQ c).photoH) imgW imgH
        = (toQ c).photoH := by
      rw [pdfFinalH, hmax]
      field_simp
    rw [pdfImgTopDownTop, hfh, pngImgTop]
    exact hsecs
  · intro hfw hdvd
    obtain ⟨k, hk⟩ := hdvd
    have hk2 : (pngContentW s c : ℚ)
        - ((pngFinalW (pngContentW s c) (pngScale s c.photoH) imgW imgH : ℤ) : ℚ)
        = 2 * k := by
      exact_mod_cast congrArg (fun z : ℤ => (z : ℚ)) hk
    have e4 : (s : ℚ) * (contentW (toQ c)
        - pdfFinalW (contentW (toQ c)) (toQ c).photoH imgW imgH) = 2 * k := by
      rw [mul_sub, ← hcwQ, ← hfw]
      exact hk2
    have hsub : pngContentW s c
        - pngFinalW (pngContentW s c) (pngScale s c.photoH) imgW imgH = 2 * k := hk
    rw [pngImgX, hsub, Int.mul_fdiv_cancel_left _ (by norm_num), pdfImgX]
    push_cast [pngScale_cast]
    calc (c.hPad : ℚ) * s + k
        = (c.hPad : ℚ) * s
          + (s : ℚ) * (contentW (toQ c)
              - pdfFinalW (contentW (toQ c)) (toQ c).photoH imgW imgH) / 2 := by
          rw [e4]
          ring
      _ = s * ((c.hPad : ℚ) + (contentW (toQ c)
              - pdfFinalW (contentW (toQ c)) (toQ c).photoH imgW imgH) / 2) := by
          ring

theorem c2_witness :
    (pngYPhoto 4 cfg2N : ℚ)
      = ((4 : ℕ) : ℚ) * ((toQ cfg2N).pageH - pdfYPhoto (toQ cfg2N) - (toQ cfg2N).photoH) ∧
    (pngImgTop 4 cfg2N : ℚ)
      = ((4 : ℕ) : ℚ) * pdfImgTopDownTop (toQ cfg2N) ((50 : ℕ) : ℚ) ((25 : ℕ) : ℚ) ∧
    (pngImgX (pngScale 4 cfg2N.hPad) (pngContentW 4 cfg2N)
        (pngFinalW (pngContentW 4 cfg2N) (pngScale 4 cfg2N.photoH) 50 25) : ℚ)
      = ((4 : ℕ) : ℚ) * pdfImgX (toQ cfg2N).hPad (contentW (toQ cfg2N))
          (pdfFinalW (contentW (toQ cfg2N)) (toQ cfg2N).photoH
            ((50 : ℕ) : ℚ) ((25 : ℕ) : ℚ)) := by
  have h := c2_backend_equivalence 4 cfg2N 50 25 rfl
  have hcw : contentW (toQ cfg2N) = 100 := by simp [contentW, cfg2N]
  have hph : (toQ cfg2N).photoH = 50 := by simp [cfg2N]
  have hpcw : pngContentW 4 cfg2N = 400 := by
    rw [pngContentW, show cfg2N.pageW = 100 from rfl, show cfg2N.hPad = 0 from rfl]
    rw [pngScale, pngScale, pytrunc_nonneg _ (by positivity),
        pytrunc_nonneg _ (by positivity)]
    push_cast
    norm_num
  have hpph : pngScale 4 cfg2N.photoH = 200 := by
    rw [show cfg2N.photoH = 50 from rfl, pngScale, pytrunc_nonneg _ (by positivity)]
    push_cast
    norm_num
  have hpfs : pngFillScale 400 200 50 25 = 8 := by
    rw [pngFillScale]
    push_cast
    rw [show (400 : ℚ) / 50 = 8 by norm_num, show (200 : ℚ) / 25 = 8 by norm_num,
        max_self]
  have hpfw : pngFinalW (pngContentW 4 cfg2N) (pngScale 4 cfg2N.photoH) 50 25 = 400 := by
    rw [hpcw, hpph, pngFinalW, hpfs, pytrunc_nonneg _ (by norm_num)]
    push_cast
    norm_num
  have hpw : pdfFinalW (contentW (toQ cfg2N)) (toQ cfg2N).photoH
      ((50 : ℕ) : ℚ) ((25 : ℕ) : ℚ) = 100 := by
    rw [hcw, hph, pdfFinalW, fillScale]
    push_cast
    rw [show (100 : ℚ) / 50 = 2 by norm_num, show (50 : ℚ) / 25 = 2 by norm_num,
        max_self]
    norm_num
  refine ⟨h.1.1, h.2.1 (by norm_num) ?_, h.2.2 ?_ ?_⟩
  · rw [hcw, hph]
    norm_num
  · rw [hpfw, hpw]
    push_cast
    norm_num
  · rw [hpfw, hpcw]
    decide

end Standee
